import Mathlib

/-!
Shallow embedding of the journal-api backend (manuscript lifecycle,
review aggregation, payment reconciliation).

Data model follows the Mongoose schemas:
  * `Manuscript` — src/unnamed/part_000 (manuscriptSchema)
  * `Review`     — src/models/Review.js (reviewSchema)
  * `Payment`    — src/models/Payment.js (paymentSchema)

Operations follow the route handlers:
  * editorial routes (initial-review, make-decision, publish, submit-back)
    and payment routes (initiate, verify, webhook) — src/routes/payments.js
  * review routes (assign, accept, decline, two submit endpoints)
    — src/unnamed/part_003

Mongoose semantics modelled explicitly: `save()` first runs schema
validation (enum checks; validators skip absent values) and then the
user-defined pre-save hooks; `findByIdAndUpdate` / `findOneAndUpdate`
apply the targeted update without running validation or save hooks.
Wall-clock time is an explicit `now : Nat` (milliseconds); the payment
gateway and the HMAC function are passed in as explicit arguments.
-/

/-- Model of JavaScript `String.prototype.includes`: character-list
containment, checked position by position. -/
def charListLeads : List Char → List Char → Bool
  | [], _ => true
  | _ :: _, [] => false
  | a :: as, b :: bs => a == b && charListLeads as bs

/-- Helper for `strIncludes`: does `sub` occur starting at any position? -/
def charListHas (sub : List Char) : List Char → Bool
  | [] => charListLeads sub []
  | b :: bs => charListLeads sub (b :: bs) || charListHas sub bs

/-- JavaScript `s.includes(sub)`. -/
def strIncludes (s sub : String) : Bool :=
  charListHas sub.toList s.toList

/-- JavaScript truthiness of an optional string (absent and `""` are falsy). -/
def strTruthy : Option String → Bool
  | none => false
  | some s => s != ""

/-- JavaScript truthiness of an optional numeric score (absent and `0` are
falsy); mirrors `if (this.evaluation[key].score)` in reviewSchema. -/
def scoreTruthy : Option ℚ → Bool
  | none => false
  | some q => q != 0

/-! ## Data model -/

/-- An entry of `manuscriptSchema.editorNotes` (part_000, lines 234-244).
The routes additionally pass a `type` tag, kept here as `ntype`. -/
structure EditorNote where
  note : String
  addedBy : Nat
  addedAt : Nat
  ntype : String
  deriving Repr, DecidableEq

/-- An entry of `manuscriptSchema.reviewAssignments` (part_000, 212-229). -/
structure ReviewAssignment where
  reviewer : Nat
  assignedDate : Nat
  dueDate : Nat
  status : String
  deriving Repr, DecidableEq

/-- `manuscriptSchema.editorDecision` (part_000, 129-142). -/
structure EditorDecision where
  decision : String
  decidedBy : Nat
  decidedAt : Nat
  notes : Option String
  deriving Repr, DecidableEq

/-- `manuscriptSchema.publicationDetails` (part_000, 146-152). -/
structure PublicationDetails where
  publishedDate : Nat
  volume : Option String
  issue : Option String
  pages : Option String
  doi : String
  deriving Repr, DecidableEq

/-- The fields of `manuscriptSchema` used by the core workflows.
`status` is `Option String`: Mongoose string paths may be unset
(assigning `undefined` unsets them), and enum validation is skipped
for absent values. -/
structure Manuscript where
  id : Nat
  submittedBy : Nat
  title : String
  status : Option String
  revisionDeadline : Option Nat
  paymentCompleted : Bool
  paymentReference : Option String
  editorDecision : Option EditorDecision
  editorNotes : List EditorNote
  reviewAssignments : List ReviewAssignment
  reviews : List Nat
  publicationDetails : Option PublicationDetails
  submissionDate : Option Nat
  lastModified : Nat
  deriving Repr, DecidableEq

/-- One evaluation criterion of `reviewSchema.evaluation`: score (1-5)
and comment, both optional. -/
structure Criterion where
  score : Option ℚ
  comment : Option String
  deriving Repr, DecidableEq

/-- `reviewSchema.evaluation` — the five named criteria, in schema
(JavaScript `Object.keys`) order. -/
structure Evaluation where
  originality : Criterion
  significance : Criterion
  methodology : Criterion
  clarity : Criterion
  literature : Criterion
  deriving Repr, DecidableEq

/-- The evaluation with no scores and no comments. -/
def emptyEvaluation : Evaluation :=
  ⟨⟨none, none⟩, ⟨none, none⟩, ⟨none, none⟩, ⟨none, none⟩, ⟨none, none⟩⟩

/-- The fields of `reviewSchema` used by the core workflows. -/
structure Review where
  id : Nat
  manuscript : Nat
  reviewer : Nat
  assignedBy : Nat
  dueDate : Nat
  submittedDate : Option Nat
  status : String
  recommendation : Option String
  evaluation : Evaluation
  overallScore : Option ℚ
  deriving Repr, DecidableEq

/-- The fields of `paymentSchema` used by the core workflows.
Monetary amounts are integers in kobo (minor currency unit). -/
structure Payment where
  id : Nat
  manuscript : Nat
  user : Nat
  amount : Nat
  currency : String
  paymentReference : String
  paystackReference : Option String
  status : String
  transactionId : Option Nat
  authorizationUrl : Option String
  accessCode : Option String
  paidAt : Option Nat
  failureReason : Option String
  metadataPublicationFee : Nat
  metadataPlatformFee : Nat
  metadataVendorReceives : Nat
  deriving Repr, DecidableEq

/-- The fields of `userSchema` the review workflows touch. -/
structure UserRec where
  id : Nat
  email : String
  role : String
  reviewAssignments : List Nat
  deriving Repr, DecidableEq

/-- The persistent store: one collection per model, plus fresh-id
counters standing in for ObjectId generation. -/
structure DB where
  manuscripts : List Manuscript
  reviews : List Review
  payments : List Payment
  users : List UserRec
  nextReviewId : Nat
  nextPaymentId : Nat
  deriving Repr, DecidableEq

/-! ## Schema enums and validation (run by Mongoose before save hooks) -/

/-- `manuscriptSchema.status` enum (part_000, lines 109-124).
Note: `submitted-back` and `reviewed` are NOT in this list. -/
def manuscriptStatusEnum : List String :=
  ["draft", "submitted", "awaiting-reviewer-assignment", "under-review",
   "revision-requested", "revised", "accepted", "rejected", "published",
   "withdrawn"]

/-- `manuscriptSchema.editorDecision.decision` enum (part_000, line 132). -/
def editorDecisionEnum : List String :=
  ["accept", "minor-revisions", "major-revisions", "reject"]

/-- `manuscriptSchema.reviewAssignments.status` enum (part_000, line 226). -/
def reviewAssignmentStatusEnum : List String :=
  ["pending", "accepted", "declined", "completed"]

/-- `reviewSchema.status` enum (Review.js, line 30).
Note: `accepted` is NOT a Review status. -/
def reviewStatusEnum : List String :=
  ["pending", "in-progress", "completed", "overdue"]

/-- `reviewSchema.recommendation` enum (Review.js, lines 35-40). -/
def recommendationEnum : List String :=
  ["accept", "minor-revision", "major-revision", "reject"]

/-- `paymentSchema.status` enum (Payment.js, line 34). -/
def paymentStatusEnum : List String :=
  ["pending", "processing", "completed", "failed", "cancelled"]

/-- Enum validator on `manuscriptSchema.status`; skipped when absent. -/
def validStatusField : Option String → Bool
  | none => true
  | some s => manuscriptStatusEnum.contains s

/-- Enum validator on `manuscriptSchema.editorDecision.decision`;
skipped when the decision subdocument is absent. -/
def validDecisionField : Option EditorDecision → Bool
  | none => true
  | some d => editorDecisionEnum.contains d.decision

/-- Enum validator on each `manuscriptSchema.reviewAssignments.status`. -/
def validAssignments (as : List ReviewAssignment) : Bool :=
  as.all (fun a => reviewAssignmentStatusEnum.contains a.status)

/-- Mongoose document validation for a manuscript: enum validators on
`status`, `editorDecision.decision` and each `reviewAssignments.status`;
validators are skipped for absent values. -/
def validateManuscript (m : Manuscript) : Bool :=
  validStatusField m.status && validDecisionField m.editorDecision &&
    validAssignments m.reviewAssignments

/-- Enum validator on `reviewSchema.recommendation`; skipped when absent. -/
def validRecommendationField : Option String → Bool
  | none => true
  | some rec => recommendationEnum.contains rec

/-- Range validator (`min: 1, max: 5`) on one criterion score;
skipped when absent. -/
def validScore : Option ℚ → Bool
  | none => true
  | some q => decide (1 ≤ q) && decide (q ≤ 5)

/-- Range validators on all five criterion scores of an evaluation. -/
def validEvaluation (ev : Evaluation) : Bool :=
  validScore ev.originality.score && validScore ev.significance.score &&
    validScore ev.methodology.score && validScore ev.clarity.score &&
    validScore ev.literature.score

/-- Mongoose document validation for a review: enum validators on
`status` and `recommendation`, min/max (1-5) on each criterion score. -/
def validateReview (r : Review) : Bool :=
  reviewStatusEnum.contains r.status &&
    validRecommendationField r.recommendation && validEvaluation r.evaluation

/-! ## Save semantics (validation, then pre-save hooks) -/

/-- `manuscriptSchema.pre('save')` (part_000, lines 314-320): stamp
`submissionDate` on first transition to `submitted`, refresh
`lastModified`. `statusModified` models `this.isModified('status')`. -/
def manuscriptPreSave (m : Manuscript) (statusModified : Bool) (now : Nat) :
    Manuscript :=
  let m :=
    if statusModified && m.status == some "submitted" &&
        m.submissionDate == none then
      { m with submissionDate := some now }
    else m
  { m with lastModified := now }

/-- `manuscript.save()`: validation first (absent values skipped), then
the pre-save hook; `none` models a thrown ValidationError, in which case
nothing is persisted. -/
def manuscriptSave (m : Manuscript) (statusModified : Bool) (now : Nat) :
    Option Manuscript :=
  if validateManuscript m then some (manuscriptPreSave m statusModified now)
  else none

/-- The scores currently present on an evaluation, in `Object.keys`
order, with JavaScript truthiness (`if (this.evaluation[key].score)`),
as collected by `reviewSchema.pre('save')` (Review.js, lines 157-162). -/
def presentScores (ev : Evaluation) : List ℚ :=
  (([ev.originality, ev.significance, ev.methodology, ev.clarity,
     ev.literature].filter (fun c => scoreTruthy c.score)).filterMap
    (fun c => c.score))

/-- `reviewSchema.pre('save')` (Review.js, lines 155-176): recompute
`overallScore` as the mean of present scores when at least one is
present (otherwise the stored value is left as is), then auto-complete
a pending review whose `recommendation` was just set.
`recommendationModified` models `this.isModified('recommendation')`. -/
def reviewPreSave (r : Review) (recommendationModified : Bool) (now : Nat) :
    Review :=
  let scores := presentScores r.evaluation
  let r :=
    if scores.length > 0 then
      { r with overallScore := some (scores.sum / (scores.length : ℚ)) }
    else r
  if recommendationModified && strTruthy r.recommendation &&
      r.status == "pending" then
    { r with status := "completed", submittedDate := some now }
  else r

/-- `review.save()`: validation, then the pre-save hook. -/
def reviewSave (r : Review) (recommendationModified : Bool) (now : Nat) :
    Option Review :=
  if validateReview r then some (reviewPreSave r recommendationModified now)
  else none

/-- `paymentSchema.pre('save')` (Payment.js, lines 89-94): generate a
`paymentReference` from wall-clock time when absent. (The random suffix
of the source is abstracted into the timestamp.) -/
def paymentPreSave (p : Payment) (now : Nat) : Payment :=
  if p.paymentReference == "" then
    { p with paymentReference := "PAY_" ++ toString now }
  else p

/-! ## Store helpers -/

/-- `Manuscript.findById`. -/
def findManuscript (db : DB) (mid : Nat) : Option Manuscript :=
  db.manuscripts.find? (fun m => m.id == mid)

/-- Persist an updated manuscript (replace by id). -/
def updateManuscript (db : DB) (m : Manuscript) : DB :=
  { db with manuscripts :=
      db.manuscripts.map (fun x => if x.id == m.id then m else x) }

/-- `Review.findById`. -/
def findReview (db : DB) (rid : Nat) : Option Review :=
  db.reviews.find? (fun r => r.id == rid)

/-- Persist an updated review (replace by id). -/
def updateReview (db : DB) (r : Review) : DB :=
  { db with reviews :=
      db.reviews.map (fun x => if x.id == r.id then r else x) }

/-- Persist an updated payment (replace by id). -/
def updatePayment (db : DB) (p : Payment) : DB :=
  { db with payments :=
      db.payments.map (fun x => if x.id == p.id then p else x) }

/-- `Payment.findOne` by internal or gateway reference
(src/routes/payments.js, lines 174-179). -/
def findPaymentByReference (db : DB) (reference : String) : Option Payment :=
  db.payments.find? (fun p =>
    p.paymentReference == reference || p.paystackReference == some reference)

/-- `Review.countDocuments(manuscript: mid, status: in [pending, accepted])`
— the make-decision guard (src/routes/payments.js, lines 784-787). -/
def pendingReviewsCount (db : DB) (mid : Nat) : Nat :=
  (db.reviews.filter (fun r => r.manuscript == mid &&
    (r.status == "pending" || r.status == "accepted"))).length

/-! ## Editorial Decision Engine (editorial routes in src/routes/payments.js) -/

/-- Result of POST /api/editorial/initial-review/:manuscriptId. -/
inductive InitialReviewResult where
  | notFound
  | invalidState
  | serverError
  | ok (newStatus : Option String)
  deriving Repr, DecidableEq

/-- The editor-notes block pushed by initial-review in both branches:
editorial remarks, internal notes, and a synthesized system note when
neither was supplied (JavaScript truthiness on the inputs). -/
def noteBlock (actor now : Nat) (editorNotes internalNotes : Option String)
    (systemNote : String) : List EditorNote :=
  (if strTruthy editorNotes then
    [⟨editorNotes.getD "", actor, now, "editorial-remarks"⟩] else []) ++
  (if strTruthy internalNotes then
    [⟨internalNotes.getD "", actor, now, "internal"⟩] else []) ++
  (if !strTruthy editorNotes && !strTruthy internalNotes then
    [⟨systemNote, actor, now, "system"⟩] else [])

/-- POST /api/editorial/initial-review/:manuscriptId
(src/routes/payments.js, lines 645-761): desk review of a `submitted`
manuscript. A decision other than `send-for-review` / `desk-reject`
leaves `newStatus` undefined, unsetting the manuscript's status. -/
def initialReview (db : DB) (mid : Nat) (decision : String)
    (editorNotes internalNotes : Option String) (actor now : Nat) :
    InitialReviewResult × DB :=
  match findManuscript db mid with
  | none => (InitialReviewResult.notFound, db)
  | some m =>
    if m.status != some "submitted" then (InitialReviewResult.invalidState, db)
    else
      let newStatus : Option String :=
        if decision == "send-for-review" then some "awaiting-reviewer-assignment"
        else if decision == "desk-reject" then some "rejected"
        else none
      let sendNotes := noteBlock actor now editorNotes internalNotes
        "Manuscript passed initial review and is ready for peer review"
      let rejectNotes := noteBlock actor now editorNotes internalNotes
        "Manuscript rejected during initial editorial review"
      let m :=
        if decision == "send-for-review" then
          { m with editorNotes := m.editorNotes ++ sendNotes }
        else if decision == "desk-reject" then
          { m with editorNotes := m.editorNotes ++ rejectNotes }
        else m
      let m := { m with status := newStatus }
      match manuscriptSave m true now with
      | none => (InitialReviewResult.serverError, db)
      | some m' => (InitialReviewResult.ok newStatus, updateManuscript db m')

/-- Request body of POST /api/editorial/make-decision/:manuscriptId. -/
structure DecisionBody where
  decision : String
  editorNotes : Option String
  internalNotes : Option String
  revisionInstructions : Option String
  revisionDeadline : Option Nat
  deriving Repr, DecidableEq

/-- The `statusMap` object of make-decision (src/routes/payments.js,
lines 797-802); an unknown decision yields `undefined`. -/
def statusMap (decision : String) : Option String :=
  if decision == "accept" then some "accepted"
  else if decision == "minor-revisions" then some "revision-requested"
  else if decision == "major-revisions" then some "revision-requested"
  else if decision == "reject" then some "rejected"
  else none

/-- Result of POST /api/editorial/make-decision/:manuscriptId. -/
inductive DecisionResult where
  | notFound
  | pendingReviews
  | serverError
  | ok (newStatus : Option String)
  deriving Repr, DecidableEq

/-- The manuscript as mutated by make-decision just before `save()`
(src/routes/payments.js, lines 807-855): appended editor notes, the
revision deadline (explicit or +60 days) when the decision mentions
revisions, the mapped status, and the overwritten `editorDecision`. -/
def decidedManuscript (m : Manuscript) (body : DecisionBody)
    (actor now : Nat) : Manuscript :=
  let remarkNotes : List EditorNote :=
    if strTruthy body.editorNotes then
      [⟨body.editorNotes.getD "", actor, now, "editorial-remarks"⟩]
    else []
  let internalNotesList : List EditorNote :=
    if strTruthy body.internalNotes then
      [⟨body.internalNotes.getD "", actor, now, "internal"⟩]
    else []
  let instructionNotes : List EditorNote :=
    if strTruthy body.revisionInstructions &&
        strIncludes body.decision "revisions" then
      [⟨"Revision Instructions: " ++ body.revisionInstructions.getD "",
        actor, now, "revision-instructions"⟩]
    else []
  let systemNotes : List EditorNote :=
    [⟨"Editorial decision: " ++ body.decision, actor, now, "system"⟩]
  { m with
    editorNotes := m.editorNotes ++ remarkNotes ++ internalNotesList ++
      instructionNotes ++ systemNotes,
    revisionDeadline :=
      if strIncludes body.decision "revisions" then
        some (body.revisionDeadline.getD (now + 5184000000))
      else m.revisionDeadline,
    status := statusMap body.decision,
    editorDecision := some ⟨body.decision, actor, now, body.editorNotes⟩ }

/-- POST /api/editorial/make-decision/:manuscriptId (src/routes/payments.js,
lines 766-889). No check of the manuscript's current status; the only
guard counts Review documents with status `pending` or `accepted`. -/
def makeDecision (db : DB) (mid : Nat) (body : DecisionBody)
    (actor now : Nat) : DecisionResult × DB :=
  match findManuscript db mid with
  | none => (DecisionResult.notFound, db)
  | some m =>
    if pendingReviewsCount db mid > 0 then (DecisionResult.pendingReviews, db)
    else
      match manuscriptSave (decidedManuscript m body actor now) true now with
      | none => (DecisionResult.serverError, db)
      | some m' =>
        (DecisionResult.ok (statusMap body.decision), updateManuscript db m')

/-- Request body of POST /api/editorial/publish/:manuscriptId. -/
structure PublishBody where
  publicationDate : Option Nat
  volume : Option String
  issue : Option String
  pages : Option String
  deriving Repr, DecidableEq

/-- Result of POST /api/editorial/publish/:manuscriptId. -/
inductive PublishResult where
  | notFound
  | invalidState
  | serverError
  | ok
  deriving Repr, DecidableEq

/-- The manuscript as mutated by publish just before `save()`
(src/routes/payments.js, lines 980-988). -/
def publishedManuscript (m : Manuscript) (body : PublishBody) (now : Nat) :
    Manuscript :=
  { m with
    status := some "published",
    publicationDetails := some ⟨body.publicationDate.getD now, body.volume,
      body.issue, body.pages, "10.1234/journal." ++ toString now⟩ }

/-- POST /api/editorial/publish/:manuscriptId (src/routes/payments.js,
lines 950-1018). Requires status `accepted`. The payment-completion
check present in the source (lines 972-978) is commented out, so
`paymentCompleted` is never consulted. -/
def publish (db : DB) (mid : Nat) (body : PublishBody) (now : Nat) :
    PublishResult × DB :=
  match findManuscript db mid with
  | none => (PublishResult.notFound, db)
  | some m =>
    if m.status != some "accepted" then (PublishResult.invalidState, db)
    else
      match manuscriptSave (publishedManuscript m body now) true now with
      | none => (PublishResult.serverError, db)
      | some m' => (PublishResult.ok, updateManuscript db m')

/-- Result of POST /api/editorial/submit-back/:manuscriptId. -/
inductive SubmitBackResult where
  | notFound
  | serverError
  | ok
  deriving Repr, DecidableEq

/-- POST /api/editorial/submit-back/:manuscriptId (src/routes/payments.js,
lines 1094-1182): administrative return for corrections from any status;
sets status `submitted-back` and a revision deadline (+30 days default). -/
def submitBack (db : DB) (mid : Nat)
    (editorRemarks internalNotes revisionInstructions : Option String)
    (revisionDeadline : Option Nat) (actor now : Nat) :
    SubmitBackResult × DB :=
  match findManuscript db mid with
  | none => (SubmitBackResult.notFound, db)
  | some m =>
    let remarkNotes : List EditorNote :=
      if strTruthy editorRemarks then
        [⟨editorRemarks.getD "", actor, now, "editorial-remarks"⟩]
      else []
    let internalNotesList : List EditorNote :=
      if strTruthy internalNotes then
        [⟨internalNotes.getD "", actor, now, "internal"⟩]
      else []
    let instructionNotes : List EditorNote :=
      if strTruthy revisionInstructions then
        [⟨"Revision Instructions: " ++ revisionInstructions.getD "",
          actor, now, "revision-instructions"⟩]
      else []
    let systemNotes : List EditorNote :=
      [⟨"Manuscript submitted back to author for revisions", actor, now,
        "system"⟩]
    let allNotes :=
      m.editorNotes ++ remarkNotes ++ internalNotesList ++
        instructionNotes ++ systemNotes
    let deadline := some (revisionDeadline.getD (now + 2592000000))
    let m := { m with editorNotes := allNotes }
    let m := { m with status := some "submitted-back" }
    let m := { m with revisionDeadline := deadline }
    match manuscriptSave m true now with
    | none => (SubmitBackResult.serverError, db)
    | some m' => (SubmitBackResult.ok, updateManuscript db m')

/-! ## Review Aggregator (src/unnamed/part_003) -/

/-- Targeted update modelling `Manuscript.findByIdAndUpdate` with
`$push: reviewAssignments` (part_003, lines 92-101). -/
def pushAssignment (db : DB) (mid : Nat) (a : ReviewAssignment) : DB :=
  { db with manuscripts := db.manuscripts.map (fun m =>
      if m.id == mid then
        { m with reviewAssignments := m.reviewAssignments ++ [a] }
      else m) }

/-- Targeted update modelling `User.findByIdAndUpdate` with
`$push: reviewAssignments` (part_003, lines 104-106). -/
def pushUserAssignment (db : DB) (uid rid : Nat) : DB :=
  { db with users := db.users.map (fun u =>
      if u.id == uid then
        { u with reviewAssignments := u.reviewAssignments ++ [rid] }
      else u) }

/-- Targeted update modelling `Manuscript.findByIdAndUpdate` with a plain
`status` assignment (part_003, lines 131-133): no validation, no hooks. -/
def setManuscriptStatus (db : DB) (mid : Nat) (s : String) : DB :=
  { db with manuscripts := db.manuscripts.map (fun m =>
      if m.id == mid then { m with status := some s } else m) }

/-- Update the first review assignment of the given reviewer — the
positional `reviewAssignments.$.status` update of `findOneAndUpdate`
(part_003, lines 380-388 and 442-450). -/
def setFirstAssignmentStatus :
    List ReviewAssignment → Nat → String → List ReviewAssignment
  | [], _, _ => []
  | a :: as, reviewer, s =>
    if a.reviewer == reviewer then { a with status := s } :: as
    else a :: setFirstAssignmentStatus as reviewer s

/-- Targeted update modelling `Manuscript.findOneAndUpdate` setting the
matching `reviewAssignments.$.status`. -/
def setAssignmentStatus (db : DB) (mid reviewer : Nat) (s : String) : DB :=
  { db with manuscripts := db.manuscripts.map (fun m =>
      if m.id == mid then
        { m with reviewAssignments :=
            setFirstAssignmentStatus m.reviewAssignments reviewer s }
      else m) }

/-- Targeted update modelling `Manuscript.findByIdAndUpdate` with
`$addToSet: reviews` (part_003, lines 391-393): set semantics. -/
def addReviewToManuscript (db : DB) (mid rid : Nat) : DB :=
  { db with manuscripts := db.manuscripts.map (fun m =>
      if m.id == mid then
        (if m.reviews.contains rid then m
         else { m with reviews := m.reviews ++ [rid] })
      else m) }

/-- The body of the per-reviewer loop of POST /api/reviews/assign
(part_003, lines 54-129): skip unknown reviewer ids; if a Review already
exists for (manuscript, reviewer), return it and create nothing;
otherwise create a pending Review, mirror an assignment entry onto the
manuscript, and record the review on the reviewer's user document.
The accumulator carries the store and `assignedReviews` (by id). -/
def processReviewer (mid assignerId reviewDueDate now : Nat)
    (acc : DB × List Nat) (rid : Nat) : DB × List Nat :=
  let db := acc.1
  let assigned := acc.2
  match db.users.find? (fun u => u.id == rid) with
  | none => (db, assigned)
  | some _ =>
    match db.reviews.find? (fun rv =>
        rv.manuscript == mid && rv.reviewer == rid) with
    | some existing => (db, assigned ++ [existing.id])
    | none =>
      let rv : Review :=
        ⟨db.nextReviewId, mid, rid, assignerId, reviewDueDate, none,
         "pending", none, emptyEvaluation, none⟩
      match reviewSave rv false now with
      | none => (db, assigned)
      | some rv' =>
        let db := { db with reviews := db.reviews ++ [rv'] }
        let db := { db with nextReviewId := db.nextReviewId + 1 }
        let db := pushAssignment db mid ⟨rid, now, reviewDueDate, "pending"⟩
        let db := pushUserAssignment db rid rv'.id
        (db, assigned ++ [rv'.id])

/-- Result of POST /api/reviews/assign. -/
inductive AssignResult where
  | validationError
  | notFound
  | ok (assignedReviews : List Nat)
  deriving Repr, DecidableEq

/-- POST /api/reviews/assign (part_003, lines 14-151): assign reviewers
to a manuscript; due date defaults to now + 30 days; after the loop, if
at least one review was collected, the manuscript status is set to
`under-review` unconditionally. -/
def assignReviewers (db : DB) (mid : Nat) (reviewerIds : List Nat)
    (dueDate : Option Nat) (assignerId now : Nat) : AssignResult × DB :=
  if reviewerIds.isEmpty then (AssignResult.validationError, db)
  else
    match findManuscript db mid with
    | none => (AssignResult.notFound, db)
    | some _ =>
      let reviewDueDate := dueDate.getD (now + 2592000000)
      let r := reviewerIds.foldl
        (processReviewer mid assignerId reviewDueDate now) (db, [])
      let db' := if r.2.isEmpty then r.1
        else setManuscriptStatus r.1 mid "under-review"
      (AssignResult.ok r.2, db')

/-- Result of the review accept / decline / submit endpoints. -/
inductive ReviewOpResult where
  | validationError
  | notFound
  | forbidden
  | invalidStatus
  | serverError
  | ok
  deriving Repr, DecidableEq

/-- POST /api/reviews/:id/accept (part_003, lines 413-464): only the
assigned reviewer, only from status `pending`; sets the review to
`in-progress` and mirrors the manuscript-side assignment to `accepted`. -/
def acceptReview (db : DB) (rid callerId now : Nat) : ReviewOpResult × DB :=
  match findReview db rid with
  | none => (ReviewOpResult.notFound, db)
  | some r =>
    if r.reviewer != callerId then (ReviewOpResult.forbidden, db)
    else if r.status != "pending" then (ReviewOpResult.invalidStatus, db)
    else
      let r := { r with status := "in-progress" }
      match reviewSave r false now with
      | none => (ReviewOpResult.serverError, db)
      | some r' =>
        let db := updateReview db r'
        (ReviewOpResult.ok, setAssignmentStatus db r'.manuscript r'.reviewer
          "accepted")

/-- POST /api/reviews/:id/decline (part_003, lines 469-523): only the
assigned reviewer, only from status `pending`; deletes the Review,
pulls the mirrored assignment entries, and pulls the review id from the
reviewer's user document. -/
def declineReview (db : DB) (rid callerId : Nat) (reason : String) :
    ReviewOpResult × DB :=
  if reason == "" then (ReviewOpResult.validationError, db)
  else
    match findReview db rid with
    | none => (ReviewOpResult.notFound, db)
    | some r =>
      if r.reviewer != callerId then (ReviewOpResult.forbidden, db)
      else if r.status != "pending" then (ReviewOpResult.invalidStatus, db)
      else
        let reviews' := db.reviews.filter (fun x => x.id != rid)
        let db := { db with reviews := reviews' }
        let manuscripts' := db.manuscripts.map (fun m =>
          if m.id == r.manuscript then
            { m with reviewAssignments :=
                m.reviewAssignments.filter (fun a => a.reviewer != r.reviewer) }
          else m)
        let db := { db with manuscripts := manuscripts' }
        let users' := db.users.map (fun u =>
          if u.id == r.reviewer then
            { u with reviewAssignments :=
                u.reviewAssignments.filter (fun x => x != r.id) }
          else u)
        let db := { db with users := users' }
        (ReviewOpResult.ok, db)

/-- Request body of PUT /api/reviews/:id/submit. -/
structure SubmitReviewBody where
  recommendation : String
  evaluation : Evaluation
  confidenceLevel : Option ℚ
  strengths : String
  weaknesses : String
  specificComments : String
  confidentialComments : Option String
  deriving Repr, DecidableEq

/-- PUT /api/reviews/:id/submit (part_003, lines 313-408): the canonical
submission endpoint. Express-validator requires the recommendation to be
one of the enum and the text fields non-empty; the handler rejects a
review that is already `completed`, overwrites the evaluation, marks the
review `completed`, saves it, and mirrors the manuscript-side assignment
status and the `reviews` set. -/
def submitReview (db : DB) (rid callerId : Nat) (body : SubmitReviewBody)
    (now : Nat) : ReviewOpResult × DB :=
  if !(recommendationEnum.contains body.recommendation) ||
      body.strengths == "" || body.weaknesses == "" ||
      body.specificComments == "" then
    (ReviewOpResult.validationError, db)
  else
    match findReview db rid with
    | none => (ReviewOpResult.notFound, db)
    | some r =>
      if r.reviewer != callerId then (ReviewOpResult.forbidden, db)
      else if r.status == "completed" then (ReviewOpResult.invalidStatus, db)
      else
        let r := { r with recommendation := some body.recommendation }
        let r := { r with evaluation := body.evaluation }
        let r := { r with status := "completed", submittedDate := some now }
        match reviewSave r true now with
        | none => (ReviewOpResult.serverError, db)
        | some r' =>
          let db := updateReview db r'
          let db := setAssignmentStatus db r'.manuscript r'.reviewer
            "completed"
          (ReviewOpResult.ok, addReviewToManuscript db r'.manuscript r'.id)

/-- POST /api/reviews/:reviewId/submit (part_003, lines 528-622): the
alternate submission endpoint. Builds the evaluation from four loose
score fields (no `literature`), marks the review `completed` and saves
it; afterwards, when every review of the manuscript is completed, it
tries to set the manuscript status to `reviewed` — a value outside the
schema enum, so that save fails after the review was already persisted. -/
def submitReviewAlt (db : DB) (rid callerId : Nat) (recommendation : String)
    (originality methodology significance clarity : Option ℚ)
    (comments : String) (now : Nat) : ReviewOpResult × DB :=
  if !(recommendationEnum.contains recommendation) || comments == "" then
    (ReviewOpResult.validationError, db)
  else
    match findReview db rid with
    | none => (ReviewOpResult.notFound, db)
    | some r =>
      if r.reviewer != callerId then (ReviewOpResult.forbidden, db)
      else if r.status == "completed" then (ReviewOpResult.invalidStatus, db)
      else
        let ev : Evaluation :=
          ⟨⟨originality, none⟩, ⟨significance, none⟩, ⟨methodology, none⟩,
           ⟨clarity, none⟩, ⟨none, none⟩⟩
        let r := { r with recommendation := some recommendation }
        let r := { r with evaluation := ev }
        let r := { r with submittedDate := some now, status := "completed" }
        match reviewSave r true now with
        | none => (ReviewOpResult.serverError, db)
        | some r' =>
          let db := updateReview db r'
          match findManuscript db r'.manuscript with
          | none => (ReviewOpResult.ok, db)
          | some m =>
            let allReviews := db.reviews.filter
              (fun x => x.manuscript == r'.manuscript)
            let completed := allReviews.filter
              (fun x => x.status == "completed")
            if completed.length == allReviews.length then
              let m := { m with status := some "reviewed" }
              match manuscriptSave m true now with
              | none => (ReviewOpResult.serverError, db)
              | some m' => (ReviewOpResult.ok, updateManuscript db m')
            else (ReviewOpResult.ok, db)

/-! ## Payment Reconciliation (payment routes in src/routes/payments.js) -/

/-- What the Paystack initialize call returns on success. -/
structure GatewayInitResponse where
  reference : String
  authorizationUrl : String
  accessCode : String
  deriving Repr, DecidableEq

/-- What the Paystack verify call reports: `success` models
`paymentData.status === 'success'`. -/
structure GatewayVerifyResponse where
  success : Bool
  transactionId : Nat
  gatewayResponse : Option String
  deriving Repr, DecidableEq

/-- Result of POST /api/payments/initiate. -/
inductive InitiateResult where
  | notFound
  | forbidden
  | notAccepted
  | alreadyPaid (paymentReference : String)
  | noEmail
  | gatewayError
  | serverError
  | ok (reference : String)
  deriving Repr, DecidableEq

/-- POST /api/payments/initiate (src/routes/payments.js, lines 14-163).
Guards, in source order: manuscript exists; caller owns it or is admin;
status is `accepted`; no completed Payment exists for the manuscript
(else the existing `paymentReference` is surfaced); the caller has an
email. Only then is the gateway contacted (`gateway = none` models a
gateway failure). The third component of the result records whether the
external gateway was contacted. -/
def initiate (db : DB) (mid callerId : Nat) (callerRole : String)
    (callerEmail : Option String) (gateway : Option GatewayInitResponse)
    (now : Nat) : InitiateResult × DB × Bool :=
  match findManuscript db mid with
  | none => (InitiateResult.notFound, db, false)
  | some m =>
    if m.submittedBy != callerId && callerRole != "admin" then
      (InitiateResult.forbidden, db, false)
    else if m.status != some "accepted" then
      (InitiateResult.notAccepted, db, false)
    else
      match db.payments.find? (fun p =>
          p.manuscript == mid && p.status == "completed") with
      | some existing =>
        (InitiateResult.alreadyPaid existing.paymentReference, db, false)
      | none =>
        let publicationFee := 5000000
        let amount := publicationFee
        let platformFee := amount / 10
        let vendorReceives := amount - platformFee
        match callerEmail with
        | none => (InitiateResult.noEmail, db, false)
        | some _ =>
          let payment : Payment :=
            ⟨db.nextPaymentId, mid, callerId, amount, "NGN", "", none,
             "pending", none, none, none, none, none, publicationFee,
             platformFee, vendorReceives⟩
          match gateway with
          | none => (InitiateResult.gatewayError, db, true)
          | some g =>
            let payment := { payment with paystackReference := some g.reference }
            let payment := { payment with authorizationUrl := some g.authorizationUrl }
            let payment := { payment with accessCode := some g.accessCode }
            let payment := { payment with status := "processing" }
            let payment := paymentPreSave payment now
            let db := { db with payments := db.payments ++ [payment] }
            let db := { db with nextPaymentId := db.nextPaymentId + 1 }
            let m := { m with paymentReference := some payment.paymentReference }
            match manuscriptSave m false now with
            | none => (InitiateResult.serverError, db, true)
            | some m' =>
              (InitiateResult.ok g.reference, updateManuscript db m', true)

/-- Result of POST /api/payments/verify/:reference. -/
inductive VerifyResult where
  | notFound
  | forbidden
  | failed
  | serverError
  | ok
  deriving Repr, DecidableEq

/-- The payment as mutated by a successful verify just before `save()`
(src/routes/payments.js, lines 209-215): status `completed`, `paidAt`
reassigned to the current time, the gateway transaction id recorded. -/
def completePayment (p : Payment) (gateway : GatewayVerifyResponse)
    (now : Nat) : Payment :=
  { p with
    status := "completed",
    paidAt := some now,
    transactionId := some gateway.transactionId }

/-- The manuscript-side mirror written by a successful verify
(src/routes/payments.js, lines 217-221). -/
def mirrorPaymentOntoManuscript (m : Manuscript) (p : Payment) : Manuscript :=
  { m with
    paymentCompleted := true,
    paymentReference := some p.paymentReference }

/-- POST /api/payments/verify/:reference (src/routes/payments.js, lines
168-263): locate the Payment by internal or gateway reference, check
owner-or-admin, ask the gateway; on gateway-reported success set the
Payment to `completed` with `paidAt := now` (reassigned on every call)
and mirror `paymentCompleted` / `paymentReference` onto the manuscript;
on failure set the Payment to `failed` with the recorded reason. -/
def verify (db : DB) (reference : String) (callerId : Nat)
    (callerRole : String) (gateway : GatewayVerifyResponse) (now : Nat) :
    VerifyResult × DB :=
  match findPaymentByReference db reference with
  | none => (VerifyResult.notFound, db)
  | some p =>
    if p.user != callerId && callerRole != "admin" then
      (VerifyResult.forbidden, db)
    else if gateway.success then
      let p := completePayment p gateway now
      let db := updatePayment db p
      match findManuscript db p.manuscript with
      | none => (VerifyResult.serverError, db)
      | some m =>
        match manuscriptSave (mirrorPaymentOntoManuscript m p) false now with
        | none => (VerifyResult.serverError, db)
        | some m' => (VerifyResult.ok, updateManuscript db m')
    else
      let reason := gateway.gatewayResponse.getD "Payment was not successful"
      let p := { p with status := "failed", failureReason := some reason }
      (VerifyResult.failed, updatePayment db p)

/-- A parsed Paystack webhook event: `eventKind` is `event.event`,
`manuscriptId` is `event.data.metadata.manuscriptId`, `reference` is
`event.data.reference`. -/
structure WebhookEvent where
  eventKind : String
  manuscriptId : Nat
  reference : String
  deriving Repr, DecidableEq

/-- Result of POST /api/payments/webhook. -/
inductive WebhookResult where
  | invalidSignature
  | ok
  deriving Repr, DecidableEq

/-- POST /api/payments/webhook (src/routes/payments.js, lines 379-418):
compare the HMAC of the raw body against the signature header and reject
mismatches. On a `charge.success` event the handler only logs — the
manuscript/payment update (lines 401-408) is commented out — so the
store is returned unchanged in every accepted case. `hmacSha512` stands
for the keyed HMAC over the raw body. -/
def handleWebhook (hmacSha512 : String → WebhookEvent → String)
    (secret : String) (rawBody : WebhookEvent) (signatureHeader : String)
    (db : DB) : WebhookResult × DB :=
  if hmacSha512 secret rawBody != signatureHeader then
    (WebhookResult.invalidSignature, db)
  else if rawBody.eventKind == "charge.success" then
    (WebhookResult.ok, db)
  else
    (WebhookResult.ok, db)

/-! ## Concrete fixtures for the closed theorems -/

/-- A minimal well-formed manuscript (id 1, author 10, status draft). -/
def baseManuscript : Manuscript :=
  ⟨1, 10, "T", some "draft", none, false, none, none, [], [], [], none,
   none, 0⟩

/-- Author 10, reviewer 20, editor 2. -/
def baseUsers : List UserRec :=
  [⟨10, "author@example.com", "author", []⟩,
   ⟨20, "reviewer@example.com", "reviewer", []⟩,
   ⟨2, "editor@example.com", "editor", []⟩]

/-- A review whose assignment was accepted by the reviewer: the accept
endpoint sets Review.status to `in-progress` (part_003, line 438). -/
def inProgressReview : Review :=
  ⟨7, 1, 20, 2, 100, none, "in-progress", none, emptyEvaluation, none⟩

/-- Manuscript 1 under review with one accepted (not completed)
review assignment mirrored on the manuscript. -/
def manuscriptUnderReview : Manuscript :=
  { baseManuscript with
    status := some "under-review",
    reviewAssignments := [⟨20, 0, 100, "accepted"⟩],
    reviews := [7] }

def dbInProgress : DB :=
  ⟨[manuscriptUnderReview], [inProgressReview], [], baseUsers, 8, 1⟩

/-- Manuscript 1 still in draft, no reviews at all. -/
def dbDraft : DB := ⟨[baseManuscript], [], [], baseUsers, 1, 1⟩

/-- Manuscript 1 accepted, publication fee NOT paid. -/
def dbAccepted : DB :=
  ⟨[{ baseManuscript with status := some "accepted" }], [], [], baseUsers,
   1, 1⟩

/-- A completed publication-fee payment for manuscript 1. -/
def completedPayment : Payment :=
  ⟨1, 1, 10, 5000000, "NGN", "PAY_X", none, "completed", none, none, none,
   some 50, none, 5000000, 500000, 4500000⟩

/-- Manuscript 1 accepted with an already-completed payment. -/
def dbPaid : DB :=
  ⟨[{ baseManuscript with status := some "accepted" }], [],
   [completedPayment], baseUsers, 1, 2⟩

/-- A processing payment (reference PAY_123) for manuscript 1. -/
def processingPayment : Payment :=
  ⟨1, 1, 10, 5000000, "NGN", "PAY_123", some "PSK_1", "processing", none,
   some "url", some "ac", none, none, 5000000, 500000, 4500000⟩

/-- Manuscript 1 accepted with a processing payment awaiting verify. -/
def dbProcessing : DB :=
  ⟨[{ baseManuscript with status := some "accepted" }], [],
   [processingPayment], baseUsers, 1, 2⟩

/-- A pending review (id 7) of manuscript 1 by reviewer 20. -/
def pendingReview : Review :=
  ⟨7, 1, 20, 2, 100, none, "pending", none, emptyEvaluation, none⟩

/-- Manuscript 1 with reviewer 20 already assigned (mirror entry and
authoritative Review both present). -/
def manuscriptAwaiting : Manuscript :=
  { baseManuscript with
    status := some "awaiting-reviewer-assignment",
    reviewAssignments := [⟨20, 0, 100, "pending"⟩] }

def dbAssigned : DB :=
  ⟨[manuscriptAwaiting], [pendingReview], [], baseUsers, 8, 1⟩

/-- A successful gateway verify response. -/
def gatewaySuccess : GatewayVerifyResponse := ⟨true, 77, none⟩

/-! ## Shared helper lemmas -/

/-- The webhook handler never mutates the store (the completion update in
the source is commented out). -/
theorem handleWebhook_state (h : String → WebhookEvent → String) (s : String)
    (b : WebhookEvent) (sig : String) (db : DB) :
    (handleWebhook h s b sig db).2 = db := by
  unfold handleWebhook
  split
  · rfl
  · split <;> rfl

/-- Replacing, by id, the element found by `find?` with an element that
still satisfies the predicate makes `find?` return the replacement. -/
theorem find?_replace {α : Type} (p : α → Bool) (idOf : α → Nat)
    (l : List α) (a b : α) (ha : l.find? p = some a) (hb : p b = true) :
    (l.map (fun x => if idOf x == idOf a then b else x)).find? p = some b := by
  induction l with
  | nil => simp at ha
  | cons x xs ih =>
    by_cases hx : p x = true
    · rw [List.find?_cons_of_pos _ hx] at ha
      injection ha with ha
      subst ha
      simp only [List.map_cons, beq_self_eq_true, if_true]
      exact List.find?_cons_of_pos _ hb
    · rw [List.find?_cons_of_neg _ hx] at ha
      simp only [List.map_cons]
      by_cases hid : (idOf x == idOf a) = true
      · rw [if_pos hid]
        exact List.find?_cons_of_pos _ hb
      · rw [if_neg hid, List.find?_cons_of_neg _ hx]
        exact ih ha

/-- Mapping a function that does not change the predicate's verdict
commutes with `find?`. -/
theorem find?_map_congr {α : Type} (p : α → Bool) (g : α → α) (l : List α)
    (a : α) (hg : ∀ x, p (g x) = p x) (ha : l.find? p = some a) :
    (l.map g).find? p = some (g a) := by
  induction l with
  | nil => simp at ha
  | cons x xs ih =>
    by_cases hx : p x = true
    · rw [List.find?_cons_of_pos _ hx] at ha
      injection ha with ha
      subst ha
      simp only [List.map_cons]
      exact List.find?_cons_of_pos _ ((hg x).trans hx)
    · rw [List.find?_cons_of_neg _ hx] at ha
      simp only [List.map_cons]
      rw [List.find?_cons_of_neg _ (by rw [hg]; exact hx)]
      exact ih ha

/-- A decision outside the four-value map yields no status. -/
theorem statusMap_none_of_invalid (d : String)
    (h : editorDecisionEnum.contains d = false) : statusMap d = none := by
  unfold statusMap
  by_cases h1 : d = "accept"
  · subst h1; exact absurd h (by decide)
  by_cases h2 : d = "minor-revisions"
  · subst h2; exact absurd h (by decide)
  by_cases h3 : d = "major-revisions"
  · subst h3; exact absurd h (by decide)
  by_cases h4 : d = "reject"
  · subst h4; exact absurd h (by decide)
  simp [h1, h2, h3, h4]

/-- Characterization of a successful verify: the payment is completed
with `paidAt := now`, and the manuscript mirror is written. -/
theorem verify_success_eq (db : DB) (ref : String) (callerId : Nat)
    (role : String) (gw : GatewayVerifyResponse) (now : Nat) (p : Payment)
    (m : Manuscript)
    (hp : findPaymentByReference db ref = some p)
    (hauth : p.user = callerId)
    (hgw : gw.success = true)
    (hm : findManuscript db p.manuscript = some m)
    (hvs : validStatusField m.status = true)
    (hvd : validDecisionField m.editorDecision = true)
    (hva : validAssignments m.reviewAssignments = true) :
    verify db ref callerId role gw now =
      (VerifyResult.ok,
        updateManuscript (updatePayment db (completePayment p gw now))
          (manuscriptPreSave
            (mirrorPaymentOntoManuscript m (completePayment p gw now))
            false now)) := by
  have hne : (p.user != callerId) = false := by simp [hauth]
  have hval : validateManuscript
      (mirrorPaymentOntoManuscript m (completePayment p gw now)) = true := by
    unfold validateManuscript mirrorPaymentOntoManuscript
    simp [hvs, hvd, hva]
  have hm' : findManuscript (updatePayment db (completePayment p gw now))
      (completePayment p gw now).manuscript = some m := hm
  simp only [verify, hp, hne, Bool.false_and, Bool.false_eq_true, if_false,
    hgw, if_true, hm', manuscriptSave, hval, if_pos]

/-! ## C1 -/

/-- C1: the make-decision guard counts only Review documents with status
`pending` or `accepted`, but `accepted` is not a Review status (accepting
an assignment sets `in-progress`). On a manuscript whose only review is
`in-progress` — hence not completed — make-decision nevertheless succeeds
and sets the status to `accepted`, instead of failing with PendingReviews
as the claim (and the source's own comment at payments.js line 783,
"Check if all reviews are completed") requires. -/
theorem c1_decision_succeeds_despite_in_progress_review :
    inProgressReview ∈ dbInProgress.reviews ∧
    inProgressReview.status = "in-progress" ∧
    inProgressReview.status ≠ "completed" ∧
    reviewStatusEnum.contains "accepted" = false ∧
    pendingReviewsCount dbInProgress 1 = 0 ∧
    (makeDecision dbInProgress 1 ⟨"accept", none, none, none, none⟩ 2
      1000).1 = DecisionResult.ok (some "accepted") ∧
    ((makeDecision dbInProgress 1 ⟨"accept", none, none, none, none⟩ 2
      1000).2.manuscripts.map Manuscript.status) = [some "accepted"] := by
  decide

/-! ## C2 -/

/-- C2 counterexample: the claim says invoking make-decision on a
manuscript whose status is not `under-review` fails with InvalidState
and leaves the manuscript unchanged. On a `draft` manuscript with no
reviews, make-decision succeeds and moves draft → accepted — a
transition along no edge of the §4.1 table. -/
theorem c2_counterexample :
    baseManuscript.status = some "draft" ∧
    (makeDecision dbDraft 1 ⟨"accept", none, none, none, none⟩ 2 1000).1 =
      DecisionResult.ok (some "accepted") ∧
    ((makeDecision dbDraft 1 ⟨"accept", none, none, none, none⟩ 2
      1000).2.manuscripts.map Manuscript.status) = [some "accepted"] := by
  decide

/-- C2 (amended): make-decision performs no check of the manuscript's
current status: whenever the manuscript exists, no review of it is
`pending`/`accepted`, and the decision is one of the four valid values,
it succeeds from ANY current status, setting the status per the decision
map. The InvalidState guard of the §4.1 table does hold for
initial-review, which rejects any manuscript not in `submitted`. -/
theorem c2_decision_lacks_status_guard (db : DB) (mid : Nat)
    (body : DecisionBody) (actor now : Nat) (m : Manuscript)
    (hm : findManuscript db mid = some m)
    (hdec : body.decision ∈ editorDecisionEnum)
    (hassign : validAssignments m.reviewAssignments = true)
    (hpend : pendingReviewsCount db mid = 0) :
    (∃ m', makeDecision db mid body actor now =
        (DecisionResult.ok (statusMap body.decision), updateManuscript db m') ∧
      m'.status = statusMap body.decision) ∧
    (m.status ≠ some "submitted" → ∀ d en inn,
      initialReview db mid d en inn actor now =
        (InitialReviewResult.invalidState, db)) := by
  constructor
  · have hfacts : validStatusField (statusMap body.decision) = true ∧
        editorDecisionEnum.contains body.decision = true ∧
        ((statusMap body.decision) == some "submitted") = false := by
      simp only [editorDecisionEnum, List.mem_cons, List.not_mem_nil,
        or_false] at hdec
      rcases hdec with h | h | h | h <;> rw [h] <;> decide
    obtain ⟨hsv, hdv, hsubm⟩ := hfacts
    have hval : validateManuscript (decidedManuscript m body actor now) = true := by
      unfold validateManuscript validDecisionField decidedManuscript
      simp [hsv, hdv, hassign, hdec]
    have hns : (decidedManuscript m body actor now).status =
        statusMap body.decision := rfl
    unfold makeDecision
    rw [hm, hpend]
    simp only [manuscriptSave, hval, if_pos]
    refine ⟨manuscriptPreSave (decidedManuscript m body actor now) true now,
      ?_, ?_⟩
    · simp
    · unfold manuscriptPreSave
      have hne : statusMap body.decision ≠ some "submitted" := by
        simpa using hsubm
      simp [hns, hne]
  · intro hstat d en inn
    unfold initialReview
    rw [hm]
    have : (m.status != some "submitted") = true := by
      simpa using hstat
    simp [this]

/-- C2 witness: make-decision applied to the draft manuscript succeeds. -/
theorem c2_decision_lacks_status_guard_witness :
    (makeDecision dbDraft 1 ⟨"accept", none, none, none, none⟩ 2 5).1 =
      DecisionResult.ok (statusMap "accept") := by
  obtain ⟨⟨m', heq, -⟩, -⟩ := c2_decision_lacks_status_guard dbDraft 1
    ⟨"accept", none, none, none, none⟩ 2 5 baseManuscript (by decide)
    (by decide) (by decide) (by decide)
  rw [heq]

/-! ## C3 -/

/-- C3 counterexample: the claim says publish succeeds only when the
publication payment has been completed. The payment check in the source
is commented out: publish on an accepted manuscript with
`paymentCompleted = false` succeeds and sets the status to `published`. -/
theorem c3_counterexample :
    (findManuscript dbAccepted 1).map Manuscript.paymentCompleted =
      some false ∧
    (publish dbAccepted 1 ⟨none, none, none, none⟩ 1000).1 =
      PublishResult.ok ∧
    ((publish dbAccepted 1 ⟨none, none, none, none⟩
      1000).2.manuscripts.map Manuscript.status) = [some "published"] := by
  decide

/-- C3 (amended): publish requires only that the manuscript's status is
`accepted` — the payment-completion requirement is commented out, so a
publish on an accepted manuscript succeeds whatever `paymentCompleted`
holds, sets the status to `published`, and leaves `paymentCompleted`
untouched; on a manuscript not in `accepted` it fails with InvalidState
and the store is unchanged. -/
theorem c3_publish_ignores_payment (db : DB) (mid : Nat)
    (body : PublishBody) (now : Nat) (m : Manuscript)
    (hm : findManuscript db mid = some m)
    (hvd : validDecisionField m.editorDecision = true)
    (hva : validAssignments m.reviewAssignments = true) :
    (m.status = some "accepted" →
      ∃ m', publish db mid body now = (PublishResult.ok, updateManuscript db m') ∧
        m'.status = some "published" ∧
        m'.paymentCompleted = m.paymentCompleted) ∧
    (m.status ≠ some "accepted" →
      publish db mid body now = (PublishResult.invalidState, db)) := by
  constructor
  · intro hstat
    have hval : validateManuscript (publishedManuscript m body now) = true := by
      unfold validateManuscript validStatusField publishedManuscript
      simp [hvd, hva, manuscriptStatusEnum]
    have hne : (m.status != some "accepted") = false := by simp [hstat]
    have hst : (publishedManuscript m body now).status = some "published" := rfl
    have hbeq : ((some "published" : Option String) ==
        some "submitted") = false := by decide
    simp only [publish, hm, hne, Bool.false_eq_true, if_false,
      manuscriptSave, hval, if_pos, manuscriptPreSave, hst, hbeq,
      Bool.true_and, Bool.false_and, Bool.and_false, Bool.and_true]
    exact ⟨_, rfl, rfl, rfl⟩
  · intro hstat
    have : (m.status != some "accepted") = true := by simpa using hstat
    simp [publish, hm, this]

/-- C3 witness: publish on the unpaid accepted manuscript succeeds. -/
theorem c3_publish_ignores_payment_witness :
    (publish dbAccepted 1 ⟨none, none, none, none⟩ 9).1 =
      PublishResult.ok := by
  obtain ⟨h1, -⟩ := c3_publish_ignores_payment dbAccepted 1
    ⟨none, none, none, none⟩ 9
    { baseManuscript with status := some "accepted" } (by decide)
    (by decide) (by decide)
  obtain ⟨m', heq, -⟩ := h1 (by decide)
  rw [heq]

/-! ## C4 -/

/-- C4: a successful payment initiation implies the caller owns the
manuscript or is admin, the status is `accepted`, and no completed
Payment exists for the manuscript; and whenever a completed Payment
exists, initiate never contacts the gateway and never succeeds, and
under the stated preconditions it is rejected with the existing
payment's reference surfaced, the store unchanged. -/
theorem c4_initiate_guards (db : DB) (mid callerId : Nat) (role : String)
    (email : Option String) (gw : Option GatewayInitResponse) (now : Nat) :
    (∀ ref, (initiate db mid callerId role email gw now).1 =
        InitiateResult.ok ref →
      ∃ m, findManuscript db mid = some m ∧
        (m.submittedBy = callerId ∨ role = "admin") ∧
        m.status = some "accepted" ∧
        db.payments.find? (fun x =>
          x.manuscript == mid && x.status == "completed") = none) ∧
    (∀ q, db.payments.find? (fun x =>
        x.manuscript == mid && x.status == "completed") = some q →
      (initiate db mid callerId role email gw now).2.2 = false ∧
      (∀ ref, (initiate db mid callerId role email gw now).1 ≠
        InitiateResult.ok ref) ∧
      (∀ m, findManuscript db mid = some m →
        (m.submittedBy = callerId ∨ role = "admin") →
        m.status = some "accepted" →
        initiate db mid callerId role email gw now =
          (InitiateResult.alreadyPaid q.paymentReference, db, false))) := by
  constructor
  · intro ref hok
    unfold initiate at hok
    split at hok
    · exact absurd hok (by simp)
    · rename_i m heq
      split at hok
      · exact absurd hok (by simp)
      · rename_i hauth
        split at hok
        · exact absurd hok (by simp)
        · rename_i hstat
          split at hok
          · exact absurd hok (by simp)
          · rename_i hnone
            refine ⟨m, heq, ?_, ?_, hnone⟩
            · have : ¬(m.submittedBy ≠ callerId ∧ role ≠ "admin") := by
                simpa using hauth
              by_cases hsb : m.submittedBy = callerId
              · exact Or.inl hsb
              · exact Or.inr (by_contra fun hr => this ⟨hsb, hr⟩)
            · simpa using hstat
  · intro q hq
    cases hfm : findManuscript db mid with
    | none =>
      refine ⟨by simp [initiate, hfm], by simp [initiate, hfm], ?_⟩
      intro m hm'
      exact absurd hm' (by simp)
    | some m =>
      by_cases hauth : (m.submittedBy != callerId && role != "admin") = true
      · refine ⟨by simp [initiate, hfm, hauth],
          by simp [initiate, hfm, hauth], ?_⟩
        intro m' hm' hdisj _
        injection hm' with hm'
        subst hm'
        have : m.submittedBy ≠ callerId ∧ role ≠ "admin" := by
          simpa using hauth
        rcases hdisj with h | h
        · exact absurd h this.1
        · exact absurd h this.2
      · by_cases hstat : (m.status != some "accepted") = true
        · refine ⟨by simp [initiate, hfm, hauth, hstat],
            by simp [initiate, hfm, hauth, hstat], ?_⟩
          intro m' hm' _ hstat'
          injection hm' with hm'
          subst hm'
          have : m.status ≠ some "accepted" := by simpa using hstat
          exact absurd hstat' this
        · have hb1 : (m.submittedBy != callerId && role != "admin") = false :=
            by simpa using hauth
          have hb2 : (m.status != some "accepted") = false := by
            simpa using hstat
          refine ⟨by simp [initiate, hfm, hb1, hb2, hq],
            by simp [initiate, hfm, hb1, hb2, hq], ?_⟩
          intro m' hm' _ _
          simp [initiate, hfm, hb1, hb2, hq]

/-- C4 witness: with a completed payment on record, initiate is rejected
before gateway contact and surfaces the stored reference PAY_X. -/
theorem c4_initiate_guards_witness :
    initiate dbPaid 1 10 "author" (some "author@example.com") none 99 =
      (InitiateResult.alreadyPaid "PAY_X", dbPaid, false) := by
  obtain ⟨-, h2⟩ := c4_initiate_guards dbPaid 1 10 "author"
    (some "author@example.com") none 99
  have h3 := h2 completedPayment (by decide)
  exact h3.2.2 { baseManuscript with status := some "accepted" }
    (by decide) (Or.inl (by decide)) (by decide)

/-! ## C5 -/

/-- Modelled from the spec word-for-word (§3 Review): `overallScore` is
the arithmetic mean of currently-present evaluation scores, absent when
no scores are present. Compared against the code's pre-save hook. -/
def specMean (ev : Evaluation) : Option ℚ :=
  if presentScores ev = [] then none
  else some ((presentScores ev).sum / ((presentScores ev).length : ℚ))

/-- The per-review claim of C5: the stored `overallScore` agrees with
the spec's mean of present scores; a review that is not yet completed
still carries its creation-time empty evaluation and no score. -/
def reviewGood (r : Review) : Prop :=
  r.overallScore = specMean r.evaluation ∧
  (r.status ≠ "completed" → r.evaluation = emptyEvaluation ∧
    r.overallScore = none)

/-- The C5 invariant over the whole store. -/
def reviewScoreInvariant (db : DB) : Prop :=
  ∀ r ∈ db.reviews, reviewGood r

/-- A freshly-created review assignment satisfies the C5 invariant. -/
theorem reviewGood_fresh (i a b c d : Nat) :
    reviewGood ⟨i, a, b, c, d, none, "pending", none, emptyEvaluation,
      none⟩ := by
  constructor
  · rfl
  · intro _
    exact ⟨rfl, rfl⟩

theorem processReviewer_scoreInv (mid assignerId due now : Nat)
    (acc : DB × List Nat) (rid : Nat)
    (h : ∀ r ∈ acc.1.reviews, reviewGood r) :
    ∀ r ∈ ((processReviewer mid assignerId due now acc rid).1).reviews,
      reviewGood r := by
  unfold processReviewer
  dsimp only
  cases hu : acc.1.users.find? (fun u => u.id == rid) with
  | none => exact h
  | some u =>
    cases hex : acc.1.reviews.find? (fun rv =>
        rv.manuscript == mid && rv.reviewer == rid) with
    | some ex => exact h
    | none =>
      show ∀ r ∈ (acc.1.reviews ++
        [(⟨acc.1.nextReviewId, mid, rid, assignerId, due, none, "pending",
          none, emptyEvaluation, none⟩ : Review)]), reviewGood r
      intro r hr
      rcases List.mem_append.mp hr with h1 | h2
      · exact h r h1
      · have : r = ⟨acc.1.nextReviewId, mid, rid, assignerId, due, none,
            "pending", none, emptyEvaluation, none⟩ := by simpa using h2
        subst this
        exact reviewGood_fresh _ _ _ _ _

theorem foldl_processReviewer_scoreInv (mid assignerId due now : Nat)
    (rids : List Nat) :
    ∀ acc : DB × List Nat, (∀ r ∈ acc.1.reviews, reviewGood r) →
      ∀ r ∈ ((rids.foldl (processReviewer mid assignerId due now)
        acc).1).reviews, reviewGood r := by
  induction rids with
  | nil => intro acc h; exact h
  | cons rid rids ih =>
    intro acc h
    exact ih _ (processReviewer_scoreInv mid assignerId due now acc rid h)

theorem scoreInv_updateReview (db : DB) (r' : Review)
    (hinv : reviewScoreInvariant db) (hg : reviewGood r') :
    ∀ x ∈ (updateReview db r').reviews, reviewGood x := by
  intro x hx
  unfold updateReview at hx
  simp only [List.mem_map] at hx
  obtain ⟨y, hy, rfl⟩ := hx
  by_cases hid : (y.id == r'.id) = true
  · rw [if_pos hid]; exact hg
  · rw [if_neg hid]; exact hinv y hy

/-- The pre-save hook restores the C5 invariant on a review being
completed by a submit endpoint, whatever evaluation was supplied. -/
theorem reviewGood_presave_completed (s : Review) (now : Nat)
    (hst : s.status = "completed") (hov : s.overallScore = none) :
    reviewGood (reviewPreSave s true now) := by
  unfold reviewPreSave
  dsimp only
  have hpend : (s.status == "pending") = false := by simp [hst]
  by_cases hlen : (presentScores s.evaluation).length > 0
  · rw [if_pos hlen]
    dsimp only
    simp only [Bool.true_and, hpend, Bool.and_false, Bool.false_eq_true,
      if_false]
    have hne : presentScores s.evaluation ≠ [] := by
      intro hcon
      rw [hcon] at hlen
      exact absurd hlen (by simp)
    refine ⟨?_, fun hcon => absurd hst hcon⟩
    unfold specMean
    rw [if_neg hne]
  · rw [if_neg hlen]
    simp only [Bool.true_and, hpend, Bool.and_false, Bool.false_eq_true,
      if_false]
    have hemp : presentScores s.evaluation = [] := by
      cases h : presentScores s.evaluation with
      | nil => rfl
      | cons a l => rw [h] at hlen; exact absurd (by simp) hlen
    refine ⟨?_, fun hcon => absurd hst hcon⟩
    rw [hov]
    unfold specMean
    rw [if_pos hemp]

theorem specMean_empty : specMean emptyEvaluation = none := rfl

theorem reviewPreSave_empty_eq (s : Review) (now : Nat)
    (hev : s.evaluation = emptyEvaluation) :
    reviewPreSave s false now = s := by
  unfold reviewPreSave
  dsimp only
  rw [hev]
  simp [presentScores, emptyEvaluation, scoreTruthy]

theorem acceptReview_scoreInv (db : DB) (rid callerId now : Nat)
    (hinv : reviewScoreInvariant db) :
    reviewScoreInvariant (acceptReview db rid callerId now).2 := by
  unfold acceptReview
  split
  · exact hinv
  · rename_i r hf
    split
    · exact hinv
    · split
      · exact hinv
      · rename_i hauth hstat
        have hpend : r.status = "pending" := by simpa using hstat
        dsimp only
        split
        · exact hinv
        · rename_i r' hsave
          have hmem : r ∈ db.reviews := List.mem_of_find?_eq_some hf
          obtain ⟨-, h2⟩ := hinv r hmem
          obtain ⟨hev, hov⟩ := h2 (by rw [hpend]; decide)
          unfold reviewSave at hsave
          split at hsave
          · injection hsave with hsave
            have heq : r' = { r with status := "in-progress" } := by
              rw [← hsave]
              exact reviewPreSave_empty_eq { r with status := "in-progress" }
                now hev
            have hg : reviewGood r' := by
              rw [heq]
              constructor
              · show r.overallScore = specMean r.evaluation
                rw [hov, hev, specMean_empty]
              · intro _
                exact ⟨hev, hov⟩
            exact fun x hx => scoreInv_updateReview db r' hinv hg x hx
          · exact absurd hsave (by simp)

theorem declineReview_scoreInv (db : DB) (rid callerId : Nat)
    (reason : String) (hinv : reviewScoreInvariant db) :
    reviewScoreInvariant (declineReview db rid callerId reason).2 := by
  unfold declineReview
  split
  · exact hinv
  · split
    · exact hinv
    · rename_i r hf
      split
      · exact hinv
      · split
        · exact hinv
        · intro x hx
          have hx' : x ∈ db.reviews.filter (fun y => y.id != rid) := hx
          exact hinv x (List.mem_of_mem_filter hx')

theorem submitReview_scoreInv (db : DB) (rid callerId : Nat)
    (body : SubmitReviewBody) (now : Nat)
    (hinv : reviewScoreInvariant db) :
    reviewScoreInvariant (submitReview db rid callerId body now).2 := by
  unfold submitReview
  split
  · exact hinv
  · split
    · exact hinv
    · rename_i r hf
      split
      · exact hinv
      · split
        · exact hinv
        · rename_i hauth hncomp
          dsimp only
          split
          · exact hinv
          · rename_i r' hsave
            have hmem : r ∈ db.reviews := List.mem_of_find?_eq_some hf
            have hne : r.status ≠ "completed" := by simpa using hncomp
            obtain ⟨-, h2⟩ := hinv r hmem
            obtain ⟨hev, hov⟩ := h2 hne
            unfold reviewSave at hsave
            split at hsave
            · injection hsave with hsave
              have hg : reviewGood r' := by
                rw [← hsave]
                exact reviewGood_presave_completed _ now rfl hov
              exact fun x hx => scoreInv_updateReview db r' hinv hg x hx
            · exact absurd hsave (by simp)

theorem submitReviewAlt_scoreInv (db : DB) (rid callerId : Nat)
    (rec : String) (o me si cl : Option ℚ) (comments : String) (now : Nat)
    (hinv : reviewScoreInvariant db) :
    reviewScoreInvariant
      (submitReviewAlt db rid callerId rec o me si cl comments now).2 := by
  unfold submitReviewAlt
  split
  · exact hinv
  · split
    · exact hinv
    · rename_i r hf
      split
      · exact hinv
      · split
        · exact hinv
        · rename_i hauth hncomp
          dsimp only
          split
          · exact hinv
          · rename_i r' hsave
            have hmem : r ∈ db.reviews := List.mem_of_find?_eq_some hf
            have hne : r.status ≠ "completed" := by simpa using hncomp
            obtain ⟨-, h2⟩ := hinv r hmem
            obtain ⟨hev, hov⟩ := h2 hne
            unfold reviewSave at hsave
            split at hsave
            · injection hsave with hsave
              have hg : reviewGood r' := by
                rw [← hsave]
                exact reviewGood_presave_completed _ now rfl hov
              have hbase : ∀ x ∈ (updateReview db r').reviews, reviewGood x :=
                fun x hx => scoreInv_updateReview db r' hinv hg x hx
              split
              · exact hbase
              · rename_i m hfm
                split
                · split
                  · exact hbase
                  · exact fun x hx => hbase x hx
                · exact hbase
            · exact absurd hsave (by simp)

theorem assignReviewers_scoreInv (db : DB) (mid : Nat) (rids : List Nat)
    (due : Option Nat) (assignerId now : Nat)
    (hinv : reviewScoreInvariant db) :
    reviewScoreInvariant (assignReviewers db mid rids due assignerId
      now).2 := by
  unfold assignReviewers
  split
  · exact hinv
  · split
    · exact hinv
    · dsimp only
      have h := foldl_processReviewer_scoreInv mid assignerId
        (due.getD (now + 2592000000)) now rids (db, []) hinv
      split
      · exact h
      · exact h

/-- C5: for every Review in the store, `overallScore` equals the
arithmetic mean of the evaluation criterion scores that are present
(absent criteria contribute nothing), recomputed on every evaluation
update, and a Review with zero scored criteria has no `overallScore`
(`specMean` spells out the spec's wording). The invariant holds of the
empty store and is preserved by every Review-mutating operation of the
repository: assign, accept, decline, and both submit endpoints. -/
theorem c5_overall_score_invariant (db : DB)
    (hinv : reviewScoreInvariant db)
    (mid rid callerId assignerId now : Nat) (rids : List Nat)
    (due : Option Nat) (body : SubmitReviewBody) (rec reason : String)
    (o me si cl : Option ℚ) (comments : String) :
    (∀ dbe : DB, dbe.reviews = [] → reviewScoreInvariant dbe) ∧
    reviewScoreInvariant (assignReviewers db mid rids due assignerId
      now).2 ∧
    reviewScoreInvariant (acceptReview db rid callerId now).2 ∧
    reviewScoreInvariant (declineReview db rid callerId reason).2 ∧
    reviewScoreInvariant (submitReview db rid callerId body now).2 ∧
    reviewScoreInvariant
      (submitReviewAlt db rid callerId rec o me si cl comments now).2 :=
  ⟨fun dbe he => by intro r hr; rw [he] at hr; exact absurd hr (by simp),
   assignReviewers_scoreInv db mid rids due assignerId now hinv,
   acceptReview_scoreInv db rid callerId now hinv,
   declineReview_scoreInv db rid callerId reason hinv,
   submitReview_scoreInv db rid callerId body now hinv,
   submitReviewAlt_scoreInv db rid callerId rec o me si cl comments now hinv⟩

/-- C5 witness: the invariant holds of the assigned-review fixture and
is preserved when reviewer 20 accepts review 7. -/
theorem c5_overall_score_invariant_witness :
    reviewScoreInvariant dbAssigned ∧
    reviewScoreInvariant (acceptReview dbAssigned 7 20 50).2 :=
  ⟨by unfold reviewScoreInvariant reviewGood; decide,
   (c5_overall_score_invariant dbAssigned
     (by unfold reviewScoreInvariant reviewGood; decide)
     1 7 20 2 50 [] none
     ⟨"accept", emptyEvaluation, none, "s", "w", "c", none⟩ "accept" "r"
     none none none none "c").2.2.1⟩

/-! ## C6 -/

/-- No two distinct Review documents share a (manuscript, reviewer) pair. -/
def ReviewPairDistinct (a b : Review) : Prop :=
  ¬(a.manuscript = b.manuscript ∧ a.reviewer = b.reviewer)

/-- The §3 uniqueness invariant: at most one Review per
(manuscript, reviewer) pair in the store. -/
def reviewsPairwiseDistinct (db : DB) : Prop :=
  db.reviews.Pairwise ReviewPairDistinct

theorem processReviewer_pairwise (mid assignerId due now : Nat)
    (acc : DB × List Nat) (rid : Nat)
    (h : acc.1.reviews.Pairwise ReviewPairDistinct) :
    ((processReviewer mid assignerId due now acc rid).1).reviews.Pairwise
      ReviewPairDistinct := by
  unfold processReviewer
  dsimp only
  cases hu : acc.1.users.find? (fun u => u.id == rid) with
  | none => exact h
  | some u =>
    cases hex : acc.1.reviews.find? (fun rv =>
        rv.manuscript == mid && rv.reviewer == rid) with
    | some ex => exact h
    | none =>
      show (acc.1.reviews ++
        [(⟨acc.1.nextReviewId, mid, rid, assignerId, due, none, "pending",
          none, emptyEvaluation, none⟩ : Review)]).Pairwise ReviewPairDistinct
      rw [List.pairwise_append]
      refine ⟨h, List.pairwise_singleton _ _, ?_⟩
      intro a ha b hb
      have hb' : b = ⟨acc.1.nextReviewId, mid, rid, assignerId, due, none,
          "pending", none, emptyEvaluation, none⟩ := by
        simpa using hb
      subst hb'
      have := List.find?_eq_none.mp hex a ha
      intro hcon
      exact this (by simp [hcon.1, hcon.2])

theorem foldl_processReviewer_pairwise (mid assignerId due now : Nat)
    (rids : List Nat) :
    ∀ acc : DB × List Nat, acc.1.reviews.Pairwise ReviewPairDistinct →
      ((rids.foldl (processReviewer mid assignerId due now)
        acc).1).reviews.Pairwise ReviewPairDistinct := by
  induction rids with
  | nil => intro acc h; exact h
  | cons rid rids ih =>
    intro acc h
    exact ih _ (processReviewer_pairwise mid assignerId due now acc rid h)

/-- C6: re-assigning a reviewer that already has a Review for the
manuscript returns exactly the existing Review's id, creates no Review
document and no `reviewAssignments` mirror entry (only the unconditional
status update to `under-review` happens); and the at-most-one-Review-per
(manuscript, reviewer)-pair invariant is preserved by any assign call. -/
theorem c6_assign_idempotent (db : DB) (mid rid : Nat) (rids : List Nat)
    (due : Option Nat) (assignerId now : Nat) :
    (∀ m ex u, findManuscript db mid = some m →
      db.reviews.find? (fun rv =>
        rv.manuscript == mid && rv.reviewer == rid) = some ex →
      db.users.find? (fun x => x.id == rid) = some u →
      assignReviewers db mid [rid] due assignerId now =
        (AssignResult.ok [ex.id], setManuscriptStatus db mid "under-review") ∧
      (setManuscriptStatus db mid "under-review").reviews = db.reviews ∧
      (findManuscript (setManuscriptStatus db mid "under-review") mid).map
        Manuscript.reviewAssignments = some m.reviewAssignments) ∧
    (reviewsPairwiseDistinct db →
      reviewsPairwiseDistinct (assignReviewers db mid rids due assignerId
        now).2) := by
  constructor
  · intro m ex u hm hex hu
    refine ⟨?_, rfl, ?_⟩
    · simp only [assignReviewers, List.isEmpty_cons, Bool.false_eq_true,
        if_false, hm, List.foldl]
      unfold processReviewer
      dsimp only
      rw [hu, hex]
      simp
    · have hm' : List.find? (fun (x : Manuscript) => x.id == mid)
          db.manuscripts = some m := hm
      have hid : (m.id == mid) = true := by
        simpa using List.find?_some hm'
      have := find?_map_congr (fun (x : Manuscript) => x.id == mid)
        (fun x => if x.id == mid then { x with status := some "under-review" }
          else x) db.manuscripts m
        (by intro x; by_cases hx : (x.id == mid) = true <;> simp [hx]) hm'
      unfold findManuscript setManuscriptStatus
      rw [this]
      simp [hid]
  · intro hinv
    unfold assignReviewers
    split
    · exact hinv
    · split
      · exact hinv
      · dsimp only
        have hfold := foldl_processReviewer_pairwise mid assignerId
          (due.getD (now + 2592000000)) now rids (db, []) hinv
        split
        · exact hfold
        · exact hfold

/-- C6 witness: re-assigning reviewer 20, who already holds review 7 of
manuscript 1, returns review 7 and leaves the reviews collection alone. -/
theorem c6_assign_idempotent_witness :
    assignReviewers dbAssigned 1 [20] none 2 77 =
      (AssignResult.ok [7], setManuscriptStatus dbAssigned 1 "under-review") ∧
    (setManuscriptStatus dbAssigned 1 "under-review").reviews =
      dbAssigned.reviews := by
  obtain ⟨h1, -⟩ := c6_assign_idempotent dbAssigned 1 20 [] none 2 77
  have h := h1 manuscriptAwaiting pendingReview
    ⟨20, "reviewer@example.com", "reviewer", []⟩ (by decide) (by decide)
    (by decide)
  exact ⟨h.1, h.2.1⟩

/-! ## C7 -/

/-- An HMAC stub that signs every body as "SIG", used to exercise the
webhook with matching and non-matching signature headers. -/
def constSig : String → WebhookEvent → String := fun _ _ => "SIG"

/-- C7 counterexample: the claim says a correctly-signed
`charge.success` event performs the same completion update as verify.
In the source that update is commented out: the handler accepts the
event and leaves the store — payment still `processing`, manuscript's
`paymentCompleted` still false — untouched. -/
theorem c7_counterexample :
    (handleWebhook constSig "secret" ⟨"charge.success", 1, "PAY_123"⟩ "SIG"
      dbProcessing).1 = WebhookResult.ok ∧
    (handleWebhook constSig "secret" ⟨"charge.success", 1, "PAY_123"⟩ "SIG"
      dbProcessing).2 = dbProcessing ∧
    (dbProcessing.payments.map Payment.status) = ["processing"] ∧
    (dbProcessing.manuscripts.map Manuscript.paymentCompleted) = [false] := by
  decide

/-- C7 (amended): the webhook handler rejects any request whose HMAC
signature over the raw body does not match, without processing it; on a
matching signature it acknowledges the event but performs no state
update at all (the completion update is commented out), for
`charge.success` and any other event alike. -/
theorem c7_webhook_rejects_bad_signature
    (hmac : String → WebhookEvent → String) (secret : String)
    (body : WebhookEvent) (sig : String) (db : DB) :
    (hmac secret body ≠ sig →
      handleWebhook hmac secret body sig db =
        (WebhookResult.invalidSignature, db)) ∧
    (hmac secret body = sig →
      handleWebhook hmac secret body sig db = (WebhookResult.ok, db)) := by
  constructor
  · intro h
    have : (hmac secret body != sig) = true := by simpa using h
    simp [handleWebhook, this]
  · intro h
    have : (hmac secret body != sig) = false := by simpa using h
    simp only [handleWebhook, this, Bool.false_eq_true, if_false]
    split <;> rfl

/-- C7 witness: a wrong signature header is rejected with the store
unchanged. -/
theorem c7_webhook_rejects_bad_signature_witness :
    handleWebhook constSig "secret" ⟨"charge.success", 1, "PAY_123"⟩ "BAD"
      dbProcessing = (WebhookResult.invalidSignature, dbProcessing) :=
  (c7_webhook_rejects_bad_signature constSig "secret"
    ⟨"charge.success", 1, "PAY_123"⟩ "BAD" dbProcessing).1 (by decide)

/-! ## C8 -/

/-- The store after a first successful verify of the processing payment. -/
def dbAfterFirstVerify : DB :=
  (verify dbProcessing "PAY_123" 10 "author" gatewaySuccess 100).2

/-- C8 counterexample: the claim says `paidAt` is set once and not
advanced by the second invocation. Verifying the already-completed
payment a second time at t=200 reassigns `paidAt` from 100 to 200. -/
theorem c8_counterexample :
    (dbAfterFirstVerify.payments.map Payment.paidAt) = [some 100] ∧
    ((verify dbAfterFirstVerify "PAY_123" 10 "author" gatewaySuccess
      200).2.payments.map Payment.paidAt) = [some 200] ∧
    ((verify dbAfterFirstVerify "PAY_123" 10 "author" gatewaySuccess
      200).2.payments.map Payment.status) = ["completed"] ∧
    (some 200 : Option Nat) ≠ some 100 := by
  decide

/-- C8 (amended): verifying the same successful reference twice leaves
Payment.status equal to `completed` and the manuscript mirror set, and
appends nothing — but `paidAt` is reassigned on every successful call,
so after the second call at t2 it holds t2, not the first time t1.
`handleWebhook` never writes the store, so it is trivially idempotent. -/
theorem c8_verify_idempotent_except_paidAt (db : DB) (ref : String)
    (callerId : Nat) (role : String) (gw : GatewayVerifyResponse)
    (t1 t2 : Nat) (p : Payment) (m : Manuscript)
    (hp : findPaymentByReference db ref = some p)
    (hauth : p.user = callerId)
    (hgw : gw.success = true)
    (hm : findManuscript db p.manuscript = some m)
    (hvs : validStatusField m.status = true)
    (hvd : validDecisionField m.editorDecision = true)
    (hva : validAssignments m.reviewAssignments = true) :
    ((verify db ref callerId role gw t1).1 = VerifyResult.ok) ∧
    ((verify (verify db ref callerId role gw t1).2 ref callerId role gw
      t2).1 = VerifyResult.ok) ∧
    ((findPaymentByReference (verify (verify db ref callerId role gw t1).2
        ref callerId role gw t2).2 ref).map Payment.status =
      some "completed") ∧
    ((findPaymentByReference (verify (verify db ref callerId role gw t1).2
        ref callerId role gw t2).2 ref).map Payment.paidAt =
      some (some t2)) ∧
    ((findPaymentByReference (verify db ref callerId role gw t1).2
        ref).map Payment.paidAt = some (some t1)) ∧
    ((findManuscript (verify (verify db ref callerId role gw t1).2 ref
        callerId role gw t2).2 p.manuscript).map
      Manuscript.paymentCompleted = some true) ∧
    (∀ h s b sig d, (handleWebhook h s b sig d).2 = d) := by
  have hp' : List.find? (fun x => x.paymentReference == ref ||
      x.paystackReference == some ref) db.payments = some p := hp
  have hpred := List.find?_some hp'
  have hm' : List.find? (fun x => x.id == p.manuscript) db.manuscripts =
      some m := hm
  have hmpred := List.find?_some hm'
  have h1 := verify_success_eq db ref callerId role gw t1 p m hp hauth hgw
    hm hvs hvd hva
  have hp1 : findPaymentByReference (verify db ref callerId role gw t1).2
      ref = some (completePayment p gw t1) := by
    rw [h1]
    exact find?_replace
      (fun x => x.paymentReference == ref || x.paystackReference == some ref)
      Payment.id db.payments p (completePayment p gw t1) hp' hpred
  have hm1 : findManuscript (verify db ref callerId role gw t1).2
      (completePayment p gw t1).manuscript =
      some (manuscriptPreSave
        (mirrorPaymentOntoManuscript m (completePayment p gw t1))
        false t1) := by
    rw [h1]
    exact find?_replace (fun x => x.id == p.manuscript) Manuscript.id
      db.manuscripts m
      (manuscriptPreSave
        (mirrorPaymentOntoManuscript m (completePayment p gw t1)) false t1)
      hm' hmpred
  have h2 := verify_success_eq (verify db ref callerId role gw t1).2 ref
    callerId role gw t2 (completePayment p gw t1)
    (manuscriptPreSave
      (mirrorPaymentOntoManuscript m (completePayment p gw t1)) false t1)
    hp1 hauth hgw hm1 hvs hvd hva
  have hp2 : findPaymentByReference
      (verify (verify db ref callerId role gw t1).2 ref callerId role gw
        t2).2 ref =
      some (completePayment (completePayment p gw t1) gw t2) := by
    rw [h2]
    exact find?_replace
      (fun (x : Payment) =>
        x.paymentReference == ref || x.paystackReference == some ref)
      Payment.id (verify db ref callerId role gw t1).2.payments
      (completePayment p gw t1)
      (completePayment (completePayment p gw t1) gw t2) hp1 hpred
  have hm2 : findManuscript
      (verify (verify db ref callerId role gw t1).2 ref callerId role gw
        t2).2 p.manuscript =
      some (manuscriptPreSave
        (mirrorPaymentOntoManuscript
          (manuscriptPreSave
            (mirrorPaymentOntoManuscript m (completePayment p gw t1))
            false t1)
          (completePayment (completePayment p gw t1) gw t2))
        false t2) := by
    rw [h2]
    exact find?_replace (fun (x : Manuscript) => x.id == p.manuscript)
      Manuscript.id (verify db ref callerId role gw t1).2.manuscripts
      (manuscriptPreSave
        (mirrorPaymentOntoManuscript m (completePayment p gw t1)) false t1)
      (manuscriptPreSave
        (mirrorPaymentOntoManuscript
          (manuscriptPreSave
            (mirrorPaymentOntoManuscript m (completePayment p gw t1))
            false t1)
          (completePayment (completePayment p gw t1) gw t2))
        false t2)
      hm1 hmpred
  refine ⟨by rw [h1], by rw [h2], ?_, ?_, ?_, ?_, handleWebhook_state⟩
  · rw [hp2]; rfl
  · rw [hp2]; rfl
  · rw [hp1]; rfl
  · rw [hm2]; rfl

/-- C8 witness: both verifications of reference PAY_123 succeed. -/
theorem c8_verify_idempotent_except_paidAt_witness :
    (verify (verify dbProcessing "PAY_123" 10 "author" gatewaySuccess
      100).2 "PAY_123" 10 "author" gatewaySuccess 200).1 =
      VerifyResult.ok :=
  (c8_verify_idempotent_except_paidAt dbProcessing "PAY_123" 10 "author"
    gatewaySuccess 100 200 processingPayment
    { baseManuscript with status := some "accepted" } (by decide)
    (by decide) rfl (by decide) (by decide) (by decide) (by decide)).2.1

/-! ## C9 -/

/-- C9: the claim says submit-back succeeds from any status and sets
the status to `submitted-back`; but `submitted-back` is not in the
manuscript schema's status enum, so the `save()` is rejected by
validation: for every store, manuscript id, body and time, submit-back
never succeeds and leaves the store unchanged (the route responds with
a server error). -/
theorem c9_submit_back_never_succeeds (db : DB) (mid : Nat)
    (editorRemarks internalNotes revisionInstructions : Option String)
    (revisionDeadline : Option Nat) (actor now : Nat) :
    manuscriptStatusEnum.contains "submitted-back" = false ∧
    (submitBack db mid editorRemarks internalNotes revisionInstructions
      revisionDeadline actor now).1 ≠ SubmitBackResult.ok ∧
    (submitBack db mid editorRemarks internalNotes revisionInstructions
      revisionDeadline actor now).2 = db := by
  refine ⟨by decide, ?_⟩
  unfold submitBack
  cases h : findManuscript db mid with
  | none => simp
  | some m =>
    simp [manuscriptSave, validateManuscript, validStatusField,
      manuscriptStatusEnum]

/-! ## C10 -/

/-- C10 counterexample: the claim says a decision outside the four-value
set leads to the manuscript being saved with its status unset. In fact
the save is rejected by the schema validation of
`editorDecision.decision` (the unknown decision is outside that enum
too), so the request fails with a server error and the store is
unchanged — the manuscript is never saved with an unset status. -/
theorem c10_counterexample :
    statusMap "publish" = none ∧
    makeDecision dbDraft 1 ⟨"publish", none, none, none, none⟩ 2 1000 =
      (DecisionResult.serverError, dbDraft) := by
  decide

/-- C10 (amended): for a decision outside
{accept, minor-revisions, major-revisions, reject}, make-decision
performs no up-front validation and the status map yields no new status,
but the save is rejected by the `editorDecision.decision` enum
validator, so the operation returns a server error and the store — in
particular the manuscript's status — is unchanged. -/
theorem c10_invalid_decision_save_rejected (db : DB) (mid : Nat)
    (body : DecisionBody) (actor now : Nat) (m : Manuscript)
    (hm : findManuscript db mid = some m)
    (hdec : editorDecisionEnum.contains body.decision = false)
    (hpend : pendingReviewsCount db mid = 0) :
    statusMap body.decision = none ∧
    makeDecision db mid body actor now = (DecisionResult.serverError, db) := by
  refine ⟨statusMap_none_of_invalid _ hdec, ?_⟩
  unfold makeDecision
  rw [hm, hpend]
  have hmem : body.decision ∉ editorDecisionEnum := by simpa using hdec
  have hval : validateManuscript (decidedManuscript m body actor now) =
      false := by
    unfold validateManuscript validDecisionField decidedManuscript
    simp [hmem]
  simp [manuscriptSave, hval]

/-- C10 witness: the unknown decision "withdraw" makes the save fail and
leaves the draft store untouched. -/
theorem c10_invalid_decision_save_rejected_witness :
    makeDecision dbDraft 1 ⟨"withdraw", none, none, none, none⟩ 2 6 =
      (DecisionResult.serverError, dbDraft) :=
  (c10_invalid_decision_save_rejected dbDraft 1
    ⟨"withdraw", none, none, none, none⟩ 2 6 baseManuscript (by decide)
    (by decide) (by decide)).2
